import Mathlib

/-!
Verification of the HTTP/1.1 server in `src/main.rs` (tschiolborg/http-server-rust).

Rust strings are modelled as lists of characters (`Str`); a Rust `String.len()`
is the UTF-8 byte length of the character sequence (`utf8Len`).  The
`HashMap<String, String>` of headers is modelled as an association list with
insert-overwrites semantics (`hmInsert` / `hmGet`).  The TCP stream feeding
`parse_to_request` is modelled by `Wire`: the successive results of the
`read_line` calls, plus the bytes delivered by the single raw `read` call used
for the body.  The filesystem is an oracle (`Fs`) giving the outcome of each
`exists` / `open` / `read_to_string` / `create` / `write_all` / `remove_file`
call; handlers return the `Response` they produce (`none` when the Rust code
would panic via `.unwrap()` on an I/O error) together with the list of
filesystem operations they performed, in order.
-/

namespace HttpSrv

/-- Rust `String` / `&str`: a sequence of characters. -/
abbrev Str : Type := List Char

/-- Rust `HashMap<String, String>` as an association list. -/
abbrev Headers : Type := List (Str × Str)

/-- `HashMap::insert`: later inserts overwrite earlier ones. -/
def hmInsert (m : Headers) (k v : Str) : Headers :=
  (k, v) :: m.filter (fun p => p.1 != k)

/-- `HashMap::get`. -/
def hmGet (m : Headers) (k : Str) : Option Str :=
  (m.find? (fun p => p.1 == k)).map (fun p => p.2)

/-- Rust `String::len`: the UTF-8 byte length of the string. -/
def utf8Len (s : Str) : Nat :=
  (s.map Char.utf8Size).sum

/-- Rust `usize::to_string`. -/
def natToStr (n : Nat) : Str :=
  (Nat.repr n).data

/-- Header key constant `CONTENT_LENGTH` from the source. -/
def CONTENT_LENGTH : Str := "Content-Length".data

/-- Header key constant `CONTENT_TYPE` from the source. -/
def CONTENT_TYPE : Str := "Content-Type".data

/-- Header key constant `USER_AGENT` from the source. -/
def USER_AGENT : Str := "User-Agent".data

/-- Content-type constant `TEXT_PLAIN` from the source. -/
def TEXT_PLAIN : Str := "text/plain".data

/-- The `Method` enum. -/
inductive Method where
  | Get
  | Post
  | Put
  | Delete
  deriving DecidableEq

/-- `Method::as_str`. -/
def Method.as_str : Method → Str
  | Method.Get => "GET".data
  | Method.Post => "POST".data
  | Method.Put => "PUT".data
  | Method.Delete => "DELETE".data

/-- The `Status` enum. -/
inductive Status where
  | Http200
  | Http201
  | Http400
  | Http404
  | Http405
  | Http409
  | Http500
  deriving DecidableEq

/-- `Status::as_str`. -/
def Status.as_str : Status → Str
  | Status.Http200 => "200 OK".data
  | Status.Http201 => "201 Created".data
  | Status.Http400 => "400 Bad Request".data
  | Status.Http404 => "404 Not Found".data
  | Status.Http405 => "405 Method Not Allowed".data
  | Status.Http409 => "409 Conflict".data
  | Status.Http500 => "500 Internal Server Error".data

/-- The `Request` struct. -/
structure Request where
  method : Method
  path : Str
  version : Str
  headers : Headers
  body : Str
  deriving DecidableEq

/-- The `Response` struct. -/
structure Response where
  status : Status
  headers : Headers
  body : Str
  deriving DecidableEq

/-- `Response::new`. -/
def Response.new (status : Status) : Response :=
  { status := status, headers := [], body := [] }

/-- `Response::with_header`. -/
def Response.with_header (r : Response) (k v : Str) : Response :=
  { r with headers := hmInsert r.headers k v }

/-- `Response::with_body`. -/
def Response.with_body (r : Response) (b : Str) : Response :=
  { r with body := b }

/-- `Response::with_content_type_and_current_length`: records the current body
length (in bytes) as the `Content-Length` header. -/
def Response.with_content_type_and_current_length (r : Response) (ct : Str) : Response :=
  (r.with_header CONTENT_TYPE ct).with_header CONTENT_LENGTH (natToStr (utf8Len r.body))

/-- The shared server `State` (resolved base directory). -/
structure State where
  directory : Str

/-- Rust `char::is_whitespace` (the Unicode `White_Space` property). -/
def isRustWhitespace (c : Char) : Bool :=
  c == ' ' || c == '\t' || c == '\n' || c == '\x0b' || c == '\x0c' || c == '\r' ||
  c == '\u0085' || c == ' ' || c == ' ' ||
  c == ' ' || c == ' ' || c == ' ' || c == ' ' || c == ' ' ||
  c == ' ' || c == ' ' || c == ' ' || c == ' ' || c == ' ' ||
  c == ' ' || c == ' ' || c == ' ' || c == ' ' || c == ' ' ||
  c == '　'

/-- Rust `str::trim_end`: remove all trailing whitespace characters. -/
def trimEnd (s : Str) : Str :=
  (s.reverse.dropWhile isRustWhitespace).reverse

/-- Split a string at the first occurrence of the character `c`: the part
before and the part after, or `none` if `c` does not occur. -/
def breakChar (c : Char) : Str → Option (Str × Str)
  | [] => none
  | x :: xs =>
    if x = c then some ([], xs)
    else (breakChar c xs).map (fun p => (x :: p.1, p.2))

/-- Rust `str::splitn(2, c)` for a character pattern. -/
def splitn2 (c : Char) (s : Str) : List Str :=
  match breakChar c s with
  | none => [s]
  | some (a, b) => [a, b]

/-- Rust `str::splitn(3, c)` for a character pattern. -/
def splitn3 (c : Char) (s : Str) : List Str :=
  match breakChar c s with
  | none => [s]
  | some (a, b) => a :: splitn2 c b

/-- Split a string at the first occurrence of the substring `pat`: the part
before and the part after, or `none` if `pat` does not occur.  (Only used with
the non-empty pattern `": "`.) -/
def breakSub (pat : Str) : Str → Option (Str × Str)
  | [] => none
  | x :: xs =>
    if pat.isPrefixOf (x :: xs) then some ([], (x :: xs).drop pat.length)
    else (breakSub pat xs).map (fun p => (x :: p.1, p.2))

/-- Rust `str::splitn(2, pat)` for a substring pattern. -/
def splitn2Sub (pat : Str) (s : Str) : List Str :=
  match breakSub pat s with
  | none => [s]
  | some (a, b) => [a, b]

/-- The method-token match in `parse_to_request`. -/
def methodOfStr (t : Str) : Option Method :=
  if t = "GET".data then some Method.Get
  else if t = "POST".data then some Method.Post
  else if t = "PUT".data then some Method.Put
  else if t = "DELETE".data then some Method.Delete
  else none

/-- Numeric value of a string of ASCII digits. -/
def digitsVal (ds : Str) : Nat :=
  ds.foldl (fun a c => a * 10 + (c.toNat - 48)) 0

/-- Rust `str::parse::<usize>()`: an optional leading `+`, then one or more
ASCII digits, rejecting values that overflow a 64-bit `usize`. -/
def parseUsize (s : Str) : Option Nat :=
  let ds := if s.head? = some '+' then s.tail else s
  if ds = [] then none
  else if ds.all Char.isDigit then
    if digitsVal ds < 2 ^ 64 then some (digitsVal ds) else none
  else none

/-- The declared body length computed in `parse_to_request`:
`headers.get(CONTENT_LENGTH).and_then(|s| s.parse::<usize>().ok()).unwrap_or(0)`. -/
def declaredLength (hs : Headers) : Nat :=
  ((hmGet hs CONTENT_LENGTH).bind parseUsize).getD 0

/-- The header-reading loop of `parse_to_request`, over the successive results
of `read_line` (an exhausted stream yields empty lines, which end the loop). -/
def parseHeaders : List Str → Headers → Except Str Headers
  | [], hs => Except.ok hs
  | l :: rest, hs =>
    let t := trimEnd l
    if t = [] then Except.ok hs
    else
      match splitn2Sub (": ".data) t with
      | [k, v] => parseHeaders rest (hmInsert hs k v)
      | _ => Except.error ("invalid header".data)

/-- The byte stream of one connection, as consumed by `parse_to_request`: the
successive results of the `read_line` calls, and the bytes delivered by the
single raw `read` call used for the body. -/
structure Wire where
  lines : List Str
  bodyBytes : Str

/-- `parse_to_request`. -/
def parse_to_request (w : Wire) : Except Str Request :=
  let line := trimEnd (w.lines.getD 0 [])
  match splitn3 ' ' line with
  | [p0, p1, p2] =>
    match methodOfStr p0 with
    | none => Except.error ("invalid method".data)
    | some method =>
      if p2 = "HTTP/1.1".data then
        match parseHeaders (w.lines.drop 1) [] with
        | Except.error e => Except.error e
        | Except.ok headers =>
          if 1024 < declaredLength headers then Except.error ("content too long".data)
          else
            let body :=
              if 0 < declaredLength headers then
                w.bodyBytes.take (min (min w.bodyBytes.length 1024) (declaredLength headers))
              else []
            Except.ok
              { method := method, path := p1, version := p2, headers := headers, body := body }
      else Except.error ("invalid version".data)
  | _ => Except.error ("invalid request".data)

/-- `get_subpath`: `path.splitn(3, a-slash)`, taking the third part when it
exists and the empty string otherwise. -/
def get_subpath (path : Str) : Str :=
  match splitn3 '/' path with
  | [_, _, v] => v
  | _ => []

/-- `root_handler`. -/
def root_handler (req : Request) : Response :=
  if req.method ≠ Method.Get then Response.new Status.Http405
  else
    ((Response.new Status.Http200).with_body
      ("Hello World".data)).with_content_type_and_current_length TEXT_PLAIN

/-- `echo_handler`. -/
def echo_handler (req : Request) : Response :=
  match req.method with
  | Method.Post =>
    if req.path ≠ "/echo".data then Response.new Status.Http405
    else
      ((Response.new Status.Http200).with_body
        req.body).with_content_type_and_current_length TEXT_PLAIN
  | Method.Get =>
    ((Response.new Status.Http200).with_body
      (get_subpath req.path)).with_content_type_and_current_length TEXT_PLAIN
  | _ => Response.new Status.Http405

/-- `user_agent_handler`. -/
def user_agent_handler (req : Request) : Response :=
  if req.method ≠ Method.Get then Response.new Status.Http405
  else
    match hmGet req.headers USER_AGENT with
    | none => Response.new Status.Http400
    | some b =>
      ((Response.new Status.Http200).with_body b).with_content_type_and_current_length TEXT_PLAIN

/-- One filesystem interaction performed by the file handler. -/
inductive FsOp where
  | existsCheck : Str → FsOp
  | openRead : Str → FsOp
  | readAll : Str → FsOp
  | createEmpty : Str → FsOp
  | writeAll : Str → FsOp
  | removeFile : Str → FsOp
  deriving DecidableEq

/-- Oracle for the outcomes of the filesystem calls made by the file handler. -/
structure Fs where
  fsExists : Str → Bool
  fsOpen : Str → Except Unit Unit
  fsRead : Str → Except Unit Str
  fsCreate : Str → Except Unit Unit
  fsWrite : Str → Str → Except Unit Unit
  fsRemove : Str → Except Unit Unit

/-- `get_file`: a failing `File::open` yields 500, but a failing
`read_to_string` hits `.unwrap()` and panics (result `none`). -/
def get_file (fs : Fs) (path : Str) : Option Response × List FsOp :=
  if fs.fsExists path = false then
    (some (Response.new Status.Http404), [FsOp.existsCheck path])
  else
    match fs.fsOpen path with
    | Except.error _ =>
      (some (Response.new Status.Http500), [FsOp.existsCheck path, FsOp.openRead path])
    | Except.ok _ =>
      match fs.fsRead path with
      | Except.error _ =>
        (none, [FsOp.existsCheck path, FsOp.openRead path, FsOp.readAll path])
      | Except.ok content =>
        (some (((Response.new Status.Http200).with_body
            content).with_content_type_and_current_length TEXT_PLAIN),
         [FsOp.existsCheck path, FsOp.openRead path, FsOp.readAll path])

/-- `post_file`: a failing `File::create` yields 500, but a failing
`write_all` hits `.unwrap()` and panics (result `none`). -/
def post_file (fs : Fs) (path : Str) (body : Str) : Option Response × List FsOp :=
  if fs.fsExists path = true then
    (some (Response.new Status.Http409), [FsOp.existsCheck path])
  else
    match fs.fsCreate path with
    | Except.error _ =>
      (some (Response.new Status.Http500), [FsOp.existsCheck path, FsOp.createEmpty path])
    | Except.ok _ =>
      match fs.fsWrite path body with
      | Except.error _ =>
        (none, [FsOp.existsCheck path, FsOp.createEmpty path, FsOp.writeAll path])
      | Except.ok _ =>
        (some (Response.new Status.Http201),
         [FsOp.existsCheck path, FsOp.createEmpty path, FsOp.writeAll path])

/-- `delete_file`. -/
def delete_file (fs : Fs) (path : Str) : Option Response × List FsOp :=
  if fs.fsExists path = false then
    (some (Response.new Status.Http404), [FsOp.existsCheck path])
  else
    match fs.fsRemove path with
    | Except.ok _ =>
      (some (Response.new Status.Http200), [FsOp.existsCheck path, FsOp.removeFile path])
    | Except.error _ =>
      (some (Response.new Status.Http500), [FsOp.existsCheck path, FsOp.removeFile path])

/-- `Path::join` for a relative second component, on Unix. -/
def pathJoin (dir name : Str) : Str :=
  if dir = [] then name
  else if dir.getLast? = some '/' then dir ++ name
  else dir ++ '/' :: name

/-- `file_handler`. -/
def file_handler (fs : Fs) (st : State) (req : Request) : Option Response × List FsOp :=
  let name := get_subpath req.path
  if ("..".data).isPrefixOf name = true then (some (Response.new Status.Http400), [])
  else if name.contains '/' = true then (some (Response.new Status.Http400), [])
  else
    let file_path := pathJoin st.directory name
    if req.method = Method.Get then get_file fs file_path
    else if req.method = Method.Post then post_file fs file_path req.body
    else if req.method = Method.Delete then delete_file fs file_path
    else (some (Response.new Status.Http405), [])

/-- `handle_request`: the routing match on `request.path`. -/
def handle_request (fs : Fs) (st : State) (req : Request) : Option Response × List FsOp :=
  if req.path = "/".data then (some (root_handler req), [])
  else if req.path = "/user-agent".data then (some (user_agent_handler req), [])
  else if req.path = "/echo".data ∨ ("/echo/".data).isPrefixOf req.path = true then
    (some (echo_handler req), [])
  else if ("/files/".data).isPrefixOf req.path = true then file_handler fs st req
  else (some (Response.new Status.Http404), [])

/-- `handle_connection`: parse, then handle; a parse failure becomes a bare
400 response. -/
def handle_connection (fs : Fs) (st : State) (w : Wire) : Option Response × List FsOp :=
  match parse_to_request w with
  | Except.ok req => handle_request fs st req
  | Except.error _ => (some (Response.new Status.Http400), [])

/-- The 200 response carrying a body that every successful text-returning
handler builds: `Response::new(Http200).with_body(b).with_content_type_and_current_length(TEXT_PLAIN)`. -/
def okResp (b : Str) : Response :=
  ((Response.new Status.Http200).with_body b).with_content_type_and_current_length TEXT_PLAIN

/-- Spec-side: split a string at every occurrence of the character `c`. -/
def splitAll (c : Char) : Str → List Str
  | [] => [[]]
  | x :: xs =>
    if x = c then [] :: splitAll c xs
    else
      match splitAll c xs with
      | [] => [[x]]
      | y :: ys => (x :: y) :: ys

/-- Spec-side (C7): the substring of a path after the second `/`, empty when
there is no such substring. -/
def afterSecondSlash (s : Str) : Str :=
  (((s.dropWhile (fun x => x != '/')).drop 1).dropWhile (fun x => x != '/')).drop 1

/-- Spec-side (C10): whether a string ends in a whitespace character. -/
def endsInWs (s : Str) : Bool :=
  match s.reverse with
  | [] => false
  | c :: _ => isRustWhitespace c

/-- Spec-side (C4): the number of positions at which `pat` occurs in `s`. -/
def countSubAt (pat s : Str) : Nat :=
  ((List.range (s.length + 1)).filter (fun i => pat.isPrefixOf (s.drop i))).length

/-- Values of a header map never end in whitespace. -/
def valuesTrimmed (m : Headers) : Prop :=
  ∀ p ∈ m, endsInWs p.2 = false

/-- Fixture: an oracle for a filesystem with no files and no I/O errors. -/
def fsAllOk : Fs :=
  { fsExists := fun _ => false, fsOpen := fun _ => Except.ok (), fsRead := fun _ => Except.ok [],
    fsCreate := fun _ => Except.ok (), fsWrite := fun _ _ => Except.ok (),
    fsRemove := fun _ => Except.ok () }

/-- Fixture: every path exists, opening succeeds, and reading fails. -/
def fsReadErrFx : Fs :=
  { fsExists := fun _ => true, fsOpen := fun _ => Except.ok (), fsRead := fun _ => Except.error (),
    fsCreate := fun _ => Except.ok (), fsWrite := fun _ _ => Except.ok (),
    fsRemove := fun _ => Except.ok () }

/-- Fixture: every path exists, opening fails. -/
def fsOpenErrFx : Fs :=
  { fsExists := fun _ => true, fsOpen := fun _ => Except.error (),
    fsRead := fun _ => Except.ok [],
    fsCreate := fun _ => Except.ok (), fsWrite := fun _ _ => Except.ok (),
    fsRemove := fun _ => Except.ok () }

/-- Fixture: the resolved server state. -/
def stBase : State := { directory := "base".data }

/-- Fixture: a request with the given method and path and no headers or body. -/
def mkReq (m : Method) (p : Str) : Request :=
  { method := m, path := p, version := "HTTP/1.1".data, headers := [], body := [] }

section Lemmas

theorem okResp_status (b : Str) : (okResp b).status = Status.Http200 := rfl

theorem okResp_body (b : Str) : (okResp b).body = b := rfl

theorem okResp_hmGet_cl (b : Str) :
    hmGet (okResp b).headers CONTENT_LENGTH = some (natToStr (utf8Len b)) := rfl

theorem okResp_hmGet_ct (b : Str) :
    hmGet (okResp b).headers CONTENT_TYPE = some TEXT_PLAIN := rfl

theorem new_headers (c : Status) : (Response.new c).headers = [] := rfl

theorem new_body (c : Status) : (Response.new c).body = [] := rfl

theorem splitAll_ne_nil (c : Char) (s : Str) : splitAll c s ≠ [] := by
  induction s with
  | nil => simp [splitAll]
  | cons x xs ih =>
    simp only [splitAll]
    split
    · simp
    · match h : splitAll c xs with
      | [] => exact absurd h ih
      | y :: ys => simp

theorem breakChar_none_splitAll {c : Char} {s : Str} (h : breakChar c s = none) :
    splitAll c s = [s] := by
  induction s with
  | nil => simp [splitAll]
  | cons x xs ih =>
    simp only [breakChar] at h
    simp only [splitAll]
    by_cases hx : x = c
    · simp [hx] at h
    · simp only [if_neg hx] at h ⊢
      rw [Option.map_eq_none'] at h
      rw [ih h]

theorem breakChar_some_splitAll {c : Char} {s a b : Str} (h : breakChar c s = some (a, b)) :
    splitAll c s = a :: splitAll c b := by
  induction s generalizing a with
  | nil => simp [breakChar] at h
  | cons x xs ih =>
    simp only [breakChar] at h
    simp only [splitAll]
    by_cases hx : x = c
    · simp only [if_pos hx] at h
      cases h
      simp [hx]
    · simp only [if_neg hx] at h
      rw [Option.map_eq_some'] at h
      obtain ⟨⟨a', b'⟩, hbr, heq⟩ := h
      cases heq
      rw [if_neg hx, ih hbr]

theorem breakChar_none_dropWhile {c : Char} {s : Str} (h : breakChar c s = none) :
    s.dropWhile (fun x => x != c) = [] := by
  induction s with
  | nil => simp
  | cons x xs ih =>
    simp only [breakChar] at h
    by_cases hx : x = c
    · simp [hx] at h
    · simp only [if_neg hx] at h
      rw [Option.map_eq_none'] at h
      simp [List.dropWhile_cons, hx, ih h]

theorem breakChar_some_dropWhile {c : Char} {s a b : Str} (h : breakChar c s = some (a, b)) :
    s.dropWhile (fun x => x != c) = c :: b := by
  induction s generalizing a with
  | nil => simp [breakChar] at h
  | cons x xs ih =>
    simp only [breakChar] at h
    by_cases hx : x = c
    · simp only [if_pos hx] at h
      cases h
      simp [List.dropWhile_cons, hx]
    · simp only [if_neg hx] at h
      rw [Option.map_eq_some'] at h
      obtain ⟨⟨a', b'⟩, hbr, heq⟩ := h
      cases heq
      simp [List.dropWhile_cons, hx, ih hbr]

theorem get_subpath_eq_afterSecondSlash (s : Str) : get_subpath s = afterSecondSlash s := by
  unfold get_subpath afterSecondSlash splitn3 splitn2
  cases h1 : breakChar '/' s with
  | none => rw [breakChar_none_dropWhile h1]; simp
  | some p =>
    obtain ⟨a, r⟩ := p
    rw [breakChar_some_dropWhile h1]
    simp only [List.drop_succ_cons, List.drop_zero]
    cases h2 : breakChar '/' r with
    | none => rw [breakChar_none_dropWhile h2]; simp
    | some q =>
      obtain ⟨b, v⟩ := q
      rw [breakChar_some_dropWhile h2]
      simp

theorem dropWhile_append_of_all {p : Char → Bool} {l1 l2 : Str} (h : ∀ x ∈ l1, p x = true) :
    (l1 ++ l2).dropWhile p = l2.dropWhile p := by
  induction l1 with
  | nil => simp
  | cons x xs ih =>
    have hx : p x = true := h x (List.mem_cons_self x xs)
    simp [List.dropWhile_cons, hx, ih (fun y hy => h y (List.mem_cons_of_mem x hy))]

theorem trimEnd_append_ws {l ws : Str} (h : ∀ c ∈ ws, isRustWhitespace c = true) :
    trimEnd (l ++ ws) = trimEnd l := by
  unfold trimEnd
  rw [List.reverse_append,
    dropWhile_append_of_all (fun x hx => h x (List.mem_reverse.mp hx))]

theorem head_dropWhile_false {p : Char → Bool} {l : Str} {c : Char} {rest : Str}
    (h : l.dropWhile p = c :: rest) : p c = false := by
  induction l with
  | nil => simp at h
  | cons x xs ih =>
    rw [List.dropWhile_cons] at h
    by_cases hx : p x = true
    · rw [if_pos hx] at h
      exact ih h
    · rw [if_neg hx] at h
      cases h
      exact Bool.eq_false_iff.mpr hx

theorem endsInWs_trimEnd (l : Str) : endsInWs (trimEnd l) = false := by
  unfold endsInWs trimEnd
  rw [List.reverse_reverse]
  cases h : l.reverse.dropWhile isRustWhitespace with
  | nil => rfl
  | cons c rest => exact head_dropWhile_false h

theorem endsInWs_append {pre v : Str} (h : v ≠ []) : endsInWs (pre ++ v) = endsInWs v := by
  unfold endsInWs
  rw [List.reverse_append]
  cases hv : v.reverse with
  | nil => exact absurd (by simpa using congrArg List.reverse hv) h
  | cons c rest => simp

theorem breakSub_none_iff {pat : Str} (hp : pat ≠ []) (s : Str) :
    breakSub pat s = none ↔ ∀ i, pat.isPrefixOf (s.drop i) = false := by
  induction s with
  | nil =>
    simp only [breakSub, List.drop_nil]
    constructor
    · intro _ i
      cases pat with
      | nil => exact absurd rfl hp
      | cons a as => rfl
    · intro _
      trivial
  | cons x xs ih =>
    simp only [breakSub]
    by_cases hpre : pat.isPrefixOf (x :: xs) = true
    · simp only [if_pos hpre]
      constructor
      · intro h
        cases h
      · intro h
        have h0 := h 0
        rw [List.drop_zero, hpre] at h0
        cases h0
    · simp only [if_neg hpre, Option.map_eq_none']
      rw [ih]
      constructor
      · intro h i
        cases i with
        | zero =>
          rw [List.drop_zero]
          exact Bool.eq_false_iff.mpr hpre
        | succ j =>
          rw [List.drop_succ_cons]
          exact h j
      · intro h j
        have hj := h (j + 1)
        rw [List.drop_succ_cons] at hj
        exact hj

theorem countSubAt_eq_zero_iff {pat : Str} (hp : pat ≠ []) (s : Str) :
    countSubAt pat s = 0 ↔ breakSub pat s = none := by
  rw [breakSub_none_iff hp]
  unfold countSubAt
  rw [List.length_eq_zero, List.filter_eq_nil_iff]
  constructor
  · intro h i
    by_cases hi : i < s.length + 1
    · have := h i (List.mem_range.mpr hi)
      exact Bool.eq_false_iff.mpr this
    · have hle : s.length ≤ i := by omega
      rw [List.drop_eq_nil_of_le hle]
      cases pat with
      | nil => exact absurd rfl hp
      | cons a as => rfl
  · intro h i _
    rw [h i]
    simp

theorem breakSub_some_suffix {pat s k v : Str} (h : breakSub pat s = some (k, v)) :
    ∃ pre, s = pre ++ v := by
  induction s generalizing k with
  | nil => simp [breakSub] at h
  | cons x xs ih =>
    simp only [breakSub] at h
    by_cases hpre : pat.isPrefixOf (x :: xs) = true
    · rw [if_pos hpre] at h
      cases h
      exact ⟨(x :: xs).take pat.length, (List.take_append_drop _ _).symm⟩
    · rw [if_neg hpre, Option.map_eq_some'] at h
      obtain ⟨⟨k', v'⟩, hbr, heq⟩ := h
      cases heq
      obtain ⟨pre, hpre2⟩ := ih hbr
      exact ⟨x :: pre, by rw [List.cons_append, ← hpre2]⟩

theorem valuesTrimmed_nil : valuesTrimmed [] := by
  intro p hp
  cases hp

theorem valuesTrimmed_insert {m : Headers} {k v : Str} (hm : valuesTrimmed m)
    (hv : endsInWs v = false) : valuesTrimmed (hmInsert m k v) := by
  intro p hp
  unfold hmInsert at hp
  cases List.mem_cons.mp hp with
  | inl h =>
    cases h
    exact hv
  | inr h => exact hm p (List.mem_of_mem_filter h)

theorem valuesTrimmed_hmGet {m : Headers} {k v : Str} (hm : valuesTrimmed m)
    (h : hmGet m k = some v) : endsInWs v = false := by
  unfold hmGet at h
  rw [Option.map_eq_some'] at h
  obtain ⟨p, hf, hv⟩ := h
  cases hv
  exact hm p (List.mem_of_find?_eq_some hf)

theorem breakSub_value_trimmed {l k v : Str}
    (h : breakSub (": ".data) (trimEnd l) = some (k, v)) : endsInWs v = false := by
  by_cases hv : v = []
  · subst hv
    rfl
  · obtain ⟨pre, hpre⟩ := breakSub_some_suffix h
    have := endsInWs_trimEnd l
    rw [hpre, endsInWs_append hv] at this
    exact this

theorem parseHeaders_valuesTrimmed : ∀ (lines : List Str) (hs0 hs : Headers),
    valuesTrimmed hs0 → parseHeaders lines hs0 = Except.ok hs → valuesTrimmed hs := by
  intro lines
  induction lines with
  | nil =>
    intro hs0 hs h0 h
    cases h
    exact h0
  | cons l rest ih =>
    intro hs0 hs h0 h
    simp only [parseHeaders] at h
    by_cases ht : trimEnd l = []
    · rw [if_pos ht] at h
      cases h
      exact h0
    · rw [if_neg ht] at h
      unfold splitn2Sub at h
      cases hb : breakSub (": ".data) (trimEnd l) with
      | none =>
        rw [hb] at h
        cases h
      | some p =>
        obtain ⟨k, v⟩ := p
        rw [hb] at h
        exact ih _ _ (valuesTrimmed_insert h0 (breakSub_value_trimmed hb)) h

theorem root_handler_form (req : Request) :
    (∃ c, root_handler req = Response.new c) ∨ (∃ b, root_handler req = okResp b) := by
  unfold root_handler
  split
  · exact Or.inl ⟨_, rfl⟩
  · exact Or.inr ⟨_, rfl⟩

theorem echo_handler_form (req : Request) :
    (∃ c, echo_handler req = Response.new c) ∨ (∃ b, echo_handler req = okResp b) := by
  unfold echo_handler
  split
  · split
    · exact Or.inl ⟨_, rfl⟩
    · exact Or.inr ⟨_, rfl⟩
  · exact Or.inr ⟨_, rfl⟩
  · exact Or.inl ⟨_, rfl⟩

theorem user_agent_handler_form (req : Request) :
    (∃ c, user_agent_handler req = Response.new c) ∨ (∃ b, user_agent_handler req = okResp b) := by
  unfold user_agent_handler
  split
  · exact Or.inl ⟨_, rfl⟩
  · cases hmGet req.headers USER_AGENT with
    | none => exact Or.inl ⟨_, rfl⟩
    | some b => exact Or.inr ⟨_, rfl⟩

theorem get_file_form {fs : Fs} {path : Str} {resp : Response}
    (h : (get_file fs path).1 = some resp) :
    (∃ c, resp = Response.new c) ∨ (∃ b, resp = okResp b) := by
  unfold get_file at h
  split at h
  · exact Or.inl ⟨_, (Option.some.inj h).symm⟩
  · split at h
    · exact Or.inl ⟨_, (Option.some.inj h).symm⟩
    · split at h
      · cases h
      · exact Or.inr ⟨_, (Option.some.inj h).symm⟩

theorem post_file_form {fs : Fs} {path body : Str} {resp : Response}
    (h : (post_file fs path body).1 = some resp) :
    (∃ c, resp = Response.new c) ∨ (∃ b, resp = okResp b) := by
  unfold post_file at h
  split at h
  · exact Or.inl ⟨_, (Option.some.inj h).symm⟩
  · split at h
    · exact Or.inl ⟨_, (Option.some.inj h).symm⟩
    · split at h
      · cases h
      · exact Or.inl ⟨_, (Option.some.inj h).symm⟩

theorem delete_file_form {fs : Fs} {path : Str} {resp : Response}
    (h : (delete_file fs path).1 = some resp) :
    (∃ c, resp = Response.new c) ∨ (∃ b, resp = okResp b) := by
  unfold delete_file at h
  split at h
  · exact Or.inl ⟨_, (Option.some.inj h).symm⟩
  · split at h
    · exact Or.inl ⟨_, (Option.some.inj h).symm⟩
    · exact Or.inl ⟨_, (Option.some.inj h).symm⟩

theorem file_handler_form {fs : Fs} {st : State} {req : Request} {resp : Response}
    (h : (file_handler fs st req).1 = some resp) :
    (∃ c, resp = Response.new c) ∨ (∃ b, resp = okResp b) := by
  simp only [file_handler] at h
  split at h
  · exact Or.inl ⟨_, (Option.some.inj h).symm⟩
  · split at h
    · exact Or.inl ⟨_, (Option.some.inj h).symm⟩
    · split at h
      · exact get_file_form h
      · split at h
        · exact post_file_form h
        · split at h
          · exact delete_file_form h
          · exact Or.inl ⟨_, (Option.some.inj h).symm⟩

theorem handle_request_form {fs : Fs} {st : State} {req : Request} {resp : Response}
    (h : (handle_request fs st req).1 = some resp) :
    (∃ c, resp = Response.new c) ∨ (∃ b, resp = okResp b) := by
  unfold handle_request at h
  split at h
  · have hr := Option.some.inj h
    subst hr
    exact root_handler_form req
  · split at h
    · have hr := Option.some.inj h
      subst hr
      exact user_agent_handler_form req
    · split at h
      · have hr := Option.some.inj h
        subst hr
        exact echo_handler_form req
      · split at h
        · exact file_handler_form h
        · exact Or.inl ⟨_, (Option.some.inj h).symm⟩

theorem handle_connection_form {fs : Fs} {st : State} {w : Wire} {resp : Response}
    (h : (handle_connection fs st w).1 = some resp) :
    (∃ c, resp = Response.new c) ∨ (∃ b, resp = okResp b) := by
  unfold handle_connection at h
  split at h
  · exact handle_request_form h
  · exact Or.inl ⟨_, (Option.some.inj h).symm⟩

theorem methodOfStr_as_str {t : Str} {m : Method} (h : methodOfStr t = some m) :
    m.as_str = t := by
  unfold methodOfStr at h
  split_ifs at h with h1 h2 h3 h4
  · cases Option.some.inj h
    rw [h1]
    rfl
  · cases Option.some.inj h
    rw [h2]
    rfl
  · cases Option.some.inj h
    rw [h3]
    rfl
  · cases Option.some.inj h
    rw [h4]
    rfl

theorem splitn3_inv {c : Char} {s a b v : Str} (h : splitn3 c s = [a, b, v]) :
    ∃ r, breakChar c s = some (a, r) ∧ breakChar c r = some (b, v) := by
  unfold splitn3 at h
  split at h
  next h1 => simp at h
  next x r h1 =>
    unfold splitn2 at h
    split at h
    next h2 => simp at h
    next y z h2 =>
      simp only [List.cons.injEq, and_true] at h
      obtain ⟨rfl, rfl, rfl⟩ := h
      exact ⟨r, h1, h2⟩

theorem parse_ok_request_line {w : Wire} {req : Request}
    (h : parse_to_request w = Except.ok req) :
    splitn3 ' ' (trimEnd (w.lines.getD 0 [])) = [req.method.as_str, req.path, req.version] ∧
    req.version = "HTTP/1.1".data := by
  simp only [parse_to_request] at h
  split at h
  next p0 p1 p2 heq =>
    split at h
    next => cases h
    next method hm =>
      split at h
      next hv =>
        split at h
        next e hherr => cases h
        next headers hh =>
          split at h
          next => cases h
          next hlen =>
            cases Except.ok.inj h
            subst hv
            refine ⟨?_, rfl⟩
            rw [← methodOfStr_as_str hm] at heq
            exact heq
      next hv => cases h
  next heq => cases h

theorem parse_to_request_eq (w : Wire) {p0 p1 : Str} {m : Method} {hs : Headers}
    (hline : splitn3 ' ' (trimEnd (w.lines.getD 0 [])) = [p0, p1, "HTTP/1.1".data])
    (hm : methodOfStr p0 = some m)
    (hh : parseHeaders (w.lines.drop 1) [] = Except.ok hs) :
    parse_to_request w =
      if 1024 < declaredLength hs then Except.error ("content too long".data)
      else
        Except.ok
          { method := m, path := p1, version := "HTTP/1.1".data, headers := hs,
            body :=
              if 0 < declaredLength hs then
                w.bodyBytes.take (min (min w.bodyBytes.length 1024) (declaredLength hs))
              else [] } := by
  simp only [parse_to_request, hline, hm, hh]
  simp

end Lemmas

section Claims

/-- Claim C1: every response the server emits that carries a `Content-Length`
header (exactly the 200 responses built via
`with_content_type_and_current_length`; every other response has no headers at
all) declares exactly the byte length of its body. -/
theorem c1_content_length_exact (fs : Fs) (st : State) (w : Wire) (resp : Response) (v : Str)
    (h1 : (handle_connection fs st w).1 = some resp)
    (h2 : hmGet resp.headers CONTENT_LENGTH = some v) :
    v = natToStr (utf8Len resp.body) ∧ resp.status = Status.Http200 := by
  cases handle_connection_form h1 with
  | inl hc =>
    obtain ⟨c, rfl⟩ := hc
    cases h2
  | inr hb =>
    obtain ⟨b, rfl⟩ := hb
    rw [okResp_hmGet_cl] at h2
    exact ⟨by rw [← Option.some.inj h2, okResp_body], okResp_status b⟩

/-- Witness for C1 at the concrete exchange `GET /echo/abc`. -/
theorem c1_content_length_exact_witness :
    "3".data = natToStr (utf8Len (okResp ("abc".data)).body) ∧
      (okResp ("abc".data)).status = Status.Http200 :=
  c1_content_length_exact fsAllOk stBase
    { lines := ["GET /echo/abc HTTP/1.1".data, []], bodyBytes := [] }
    (okResp ("abc".data)) ("3".data) rfl rfl

/-- Claim C9: every emitted response whose status is neither 200 nor 201 has
an empty header map and an empty body; in particular it carries no
`Content-Type` and no `Content-Length` header. -/
theorem c9_error_responses_bare (fs : Fs) (st : State) (w : Wire) (resp : Response)
    (h1 : (handle_connection fs st w).1 = some resp)
    (h2 : resp.status ≠ Status.Http200) (h3 : resp.status ≠ Status.Http201) :
    resp.headers = [] ∧ resp.body = [] ∧
      hmGet resp.headers CONTENT_TYPE = none ∧ hmGet resp.headers CONTENT_LENGTH = none := by
  cases handle_connection_form h1 with
  | inl hc =>
    obtain ⟨c, rfl⟩ := hc
    exact ⟨rfl, rfl, rfl, rfl⟩
  | inr hb =>
    obtain ⟨b, rfl⟩ := hb
    exact absurd (okResp_status b) h2

/-- Witness for C9 at a concrete malformed request (parse failure, status 400). -/
theorem c9_error_responses_bare_witness :
    (Response.new Status.Http400).headers = [] ∧ (Response.new Status.Http400).body = [] ∧
      hmGet (Response.new Status.Http400).headers CONTENT_TYPE = none ∧
      hmGet (Response.new Status.Http400).headers CONTENT_LENGTH = none :=
  c9_error_responses_bare fsAllOk stBase { lines := ["garbage".data], bodyBytes := [] }
    (Response.new Status.Http400) rfl (by decide) (by decide)

/-- Claim C2: whenever the name extracted from the path (everything after
`/files/`) starts with `..` or contains a `/` anywhere, the file handler
answers 400 and performs no filesystem operation at all, for every method. -/
theorem c2_traversal_rejected (fs : Fs) (st : State) (req : Request)
    (h : ("..".data).isPrefixOf (get_subpath req.path) = true ∨
         (get_subpath req.path).contains '/' = true) :
    file_handler fs st req = (some (Response.new Status.Http400), []) := by
  simp only [file_handler]
  cases h with
  | inl h1 => rw [if_pos h1]
  | inr h2 =>
    by_cases h1 : ("..".data).isPrefixOf (get_subpath req.path) = true
    · rw [if_pos h1]
    · rw [if_neg h1, if_pos h2]

/-- Witness for C2 at the concrete inputs `GET /files/../secret.toml` and
`DELETE /files/sub/dir.txt`. -/
theorem c2_traversal_rejected_witness :
    file_handler fsAllOk stBase (mkReq Method.Get ("/files/../secret.toml".data)) =
      (some (Response.new Status.Http400), []) ∧
    file_handler fsAllOk stBase (mkReq Method.Delete ("/files/sub/dir.txt".data)) =
      (some (Response.new Status.Http400), []) :=
  ⟨c2_traversal_rejected fsAllOk stBase (mkReq Method.Get ("/files/../secret.toml".data))
      (Or.inl (by decide)),
   c2_traversal_rejected fsAllOk stBase (mkReq Method.Delete ("/files/sub/dir.txt".data))
      (Or.inr (by decide))⟩

/-- Counterexample to C3 as stated: on a filesystem where the resolved path
exists and opening succeeds but reading its contents fails with an I/O error,
`GET /files/a.txt` produces no response at all (the `read_to_string` result is
`.unwrap()`-ed, so the Rust thread panics) instead of the claimed 500. -/
theorem c3_counterexample :
    fsReadErrFx.fsExists (pathJoin stBase.directory ("a.txt".data)) = true ∧
    fsReadErrFx.fsRead (pathJoin stBase.directory ("a.txt".data)) = Except.error () ∧
    (file_handler fsReadErrFx stBase (mkReq Method.Get ("/files/a.txt".data))).1 = none ∧
    (file_handler fsReadErrFx stBase (mkReq Method.Get ("/files/a.txt".data))).1 ≠
      some (Response.new Status.Http500) :=
  ⟨rfl, rfl, rfl, by decide⟩

/-- Claim C3 amended: for a GET whose resolved path exists, only a failure of
`File::open` is surfaced as 500; after a successful open, a successful read
yields 200 with the contents, while an I/O error during the read makes the
handler panic and emit no response at all. -/
theorem c3_get_file_io (fs : Fs) (p : Str) (hex : fs.fsExists p = true) :
    (fs.fsOpen p = Except.error () → (get_file fs p).1 = some (Response.new Status.Http500)) ∧
    (∀ content, fs.fsOpen p = Except.ok () → fs.fsRead p = Except.ok content →
      (get_file fs p).1 = some (okResp content)) ∧
    (fs.fsOpen p = Except.ok () → fs.fsRead p = Except.error () →
      (get_file fs p).1 = none) := by
  have hne : ¬ (fs.fsExists p = false) := by simp [hex]
  unfold get_file
  rw [if_neg hne]
  refine ⟨?_, ?_, ?_⟩
  · intro ho
    rw [ho]
  · intro content ho hr
    rw [ho, hr]
    rfl
  · intro ho hr
    rw [ho, hr]

/-- Witness for C3 (amended) on the concrete failing filesystem oracle. -/
theorem c3_get_file_io_witness :
    (get_file fsReadErrFx ("base/a.txt".data)).1 = none ∧
    (get_file fsOpenErrFx ("base/a.txt".data)).1 = some (Response.new Status.Http500) :=
  ⟨(c3_get_file_io fsReadErrFx ("base/a.txt".data) rfl).2.2 rfl rfl,
   (c3_get_file_io fsOpenErrFx ("base/a.txt".data) rfl).1 rfl⟩

/-- Counterexample to C4 as stated: the non-empty header line `a: b: c`
contains the separator `": "` twice, yet the header loop accepts it (the
claim says a line with two or more occurrences is rejected), splitting at the
first occurrence. -/
theorem c4_counterexample :
    countSubAt (": ".data) ("a: b: c".data) = 2 ∧
    parseHeaders [("a: b: c".data)] [] = Except.ok [("a".data, "b: c".data)] :=
  ⟨by decide, rfl⟩

/-- Claim C4 amended: a non-empty header line fails the parse iff the
separator `": "` occurs nowhere in it; when it occurs at least once the line
is split at its first occurrence (later occurrences stay inside the value)
and the header loop continues. -/
theorem c4_header_separator (l : Str) (rest : List Str) (hs : Headers)
    (hne : ¬ trimEnd l = []) :
    (countSubAt (": ".data) (trimEnd l) = 0 →
      parseHeaders (l :: rest) hs = Except.error ("invalid header".data)) ∧
    (∀ k v, breakSub (": ".data) (trimEnd l) = some (k, v) →
      countSubAt (": ".data) (trimEnd l) ≠ 0 ∧
      parseHeaders (l :: rest) hs = parseHeaders rest (hmInsert hs k v)) := by
  have hpat : (": ".data) ≠ ([] : Str) := by decide
  constructor
  · intro h0
    have hb : breakSub (": ".data) (trimEnd l) = none := (countSubAt_eq_zero_iff hpat _).mp h0
    simp only [parseHeaders, if_neg hne]
    unfold splitn2Sub
    rw [hb]
  · intro k v hkv
    constructor
    · intro h0
      rw [(countSubAt_eq_zero_iff hpat _).mp h0] at hkv
      cases hkv
    · simp only [parseHeaders, if_neg hne]
      unfold splitn2Sub
      rw [hkv]

/-- Witness for C4 (amended) at the concrete lines `a: b` and `nosep`. -/
theorem c4_header_separator_witness :
    parseHeaders [("a: b".data)] [] = parseHeaders [] (hmInsert [] ("a".data) ("b".data)) ∧
    parseHeaders [("nosep".data)] [] = Except.error ("invalid header".data) :=
  ⟨((c4_header_separator ("a: b".data) [] [] (by decide)).2 ("a".data) ("b".data)
      (by decide)).2,
   (c4_header_separator ("nosep".data) [] [] (by decide)).1 (by decide)⟩

/-- Claim C6: routing is decided purely lexically on the raw path, in
priority order: exact `/` to the root handler, exact `/user-agent` to the
client-identification handler, exact `/echo` or prefix `/echo/` to the echo
handler, prefix `/files/` to the file handler, and anything else is an
immediate bare 404 with no handler invoked and no filesystem access. -/
theorem c6_routing (fs : Fs) (st : State) (req : Request) :
    (req.path = "/".data → handle_request fs st req = (some (root_handler req), [])) ∧
    (req.path = "/user-agent".data →
      handle_request fs st req = (some (user_agent_handler req), [])) ∧
    ((req.path = "/echo".data ∨ ("/echo/".data).isPrefixOf req.path = true) →
      handle_request fs st req = (some (echo_handler req), [])) ∧
    (req.path ≠ "/".data → req.path ≠ "/user-agent".data →
      ¬ (req.path = "/echo".data ∨ ("/echo/".data).isPrefixOf req.path = true) →
      ("/files/".data).isPrefixOf req.path = true →
      handle_request fs st req = file_handler fs st req) ∧
    (req.path ≠ "/".data → req.path ≠ "/user-agent".data →
      ¬ (req.path = "/echo".data ∨ ("/echo/".data).isPrefixOf req.path = true) →
      ("/files/".data).isPrefixOf req.path ≠ true →
      handle_request fs st req = (some (Response.new Status.Http404), [])) := by
  refine ⟨?_, ?_, ?_, ?_, ?_⟩
  · intro h
    simp only [handle_request]
    rw [if_pos h]
  · intro h
    simp only [handle_request, h]
    simp
  · intro h
    cases h with
    | inl h =>
      simp only [handle_request, h]
      simp
    | inr h =>
      have h1 : req.path ≠ "/".data := by
        intro heq
        rw [heq] at h
        cases h
      have h2 : req.path ≠ "/user-agent".data := by
        intro heq
        rw [heq] at h
        cases h
      simp only [handle_request]
      rw [if_neg h1, if_neg h2, if_pos (Or.inr h)]
  · intro h1 h2 h3 h4
    simp only [handle_request]
    rw [if_neg h1, if_neg h2, if_neg h3, if_pos h4]
  · intro h1 h2 h3 h4
    simp only [handle_request]
    rw [if_neg h1, if_neg h2, if_neg h3, if_neg h4]

/-- Witness for C6 at one concrete request per routing branch. -/
theorem c6_routing_witness :
    handle_request fsAllOk stBase (mkReq Method.Get ("/".data)) =
      (some (root_handler (mkReq Method.Get ("/".data))), []) ∧
    handle_request fsAllOk stBase (mkReq Method.Get ("/user-agent".data)) =
      (some (user_agent_handler (mkReq Method.Get ("/user-agent".data))), []) ∧
    handle_request fsAllOk stBase (mkReq Method.Get ("/echo/abc".data)) =
      (some (echo_handler (mkReq Method.Get ("/echo/abc".data))), []) ∧
    handle_request fsAllOk stBase (mkReq Method.Get ("/files/a.txt".data)) =
      file_handler fsAllOk stBase (mkReq Method.Get ("/files/a.txt".data)) ∧
    handle_request fsAllOk stBase (mkReq Method.Get ("/nope".data)) =
      (some (Response.new Status.Http404), []) :=
  ⟨(c6_routing fsAllOk stBase (mkReq Method.Get ("/".data))).1 rfl,
   (c6_routing fsAllOk stBase (mkReq Method.Get ("/user-agent".data))).2.1 rfl,
   (c6_routing fsAllOk stBase (mkReq Method.Get ("/echo/abc".data))).2.2.1 (Or.inr (by decide)),
   (c6_routing fsAllOk stBase (mkReq Method.Get ("/files/a.txt".data))).2.2.2.1
     (by decide) (by decide) (by decide) (by decide),
   (c6_routing fsAllOk stBase (mkReq Method.Get ("/nope".data))).2.2.2.2
     (by decide) (by decide) (by decide) (by decide)⟩

/-- Claim C7: for requests dispatched to the echo handler, a GET yields 200
with body the substring of the path after the second `/` (empty when there is
none); a POST on the exact path `/echo` yields 200 echoing the request body;
a POST on any other echo path yields 405; PUT and DELETE yield 405; and every
200 built here carries `Content-Type: text/plain` and an exact
`Content-Length`. -/
theorem c7_echo_handler (req : Request)
    (_hdisp : req.path = "/echo".data ∨ ("/echo/".data).isPrefixOf req.path = true) :
    (req.method = Method.Get → echo_handler req = okResp (afterSecondSlash req.path)) ∧
    (req.method = Method.Post → req.path = "/echo".data →
      echo_handler req = okResp req.body) ∧
    (req.method = Method.Post → req.path ≠ "/echo".data →
      echo_handler req = Response.new Status.Http405) ∧
    ((req.method = Method.Put ∨ req.method = Method.Delete) →
      echo_handler req = Response.new Status.Http405) ∧
    (∀ b, hmGet (okResp b).headers CONTENT_TYPE = some TEXT_PLAIN ∧
      hmGet (okResp b).headers CONTENT_LENGTH = some (natToStr (utf8Len b))) := by
  refine ⟨?_, ?_, ?_, ?_, ?_⟩
  · intro hm
    simp only [echo_handler, hm]
    rw [get_subpath_eq_afterSecondSlash]
    rfl
  · intro hm hp
    simp only [echo_handler, hm]
    rw [if_neg (by simp [hp])]
    rfl
  · intro hm hp
    simp only [echo_handler, hm]
    rw [if_pos hp]
  · intro hm
    cases hm with
    | inl h => simp only [echo_handler, h]
    | inr h => simp only [echo_handler, h]
  · intro b
    exact ⟨okResp_hmGet_ct b, okResp_hmGet_cl b⟩

/-- Witness for C7 at one concrete request per behaviour. -/
theorem c7_echo_handler_witness :
    echo_handler (mkReq Method.Get ("/echo/abc".data)) =
      okResp (afterSecondSlash ("/echo/abc".data)) ∧
    echo_handler { mkReq Method.Post ("/echo".data) with body := "abc".data } =
      okResp ("abc".data) ∧
    echo_handler (mkReq Method.Post ("/echo/abc".data)) = Response.new Status.Http405 ∧
    echo_handler (mkReq Method.Put ("/echo".data)) = Response.new Status.Http405 :=
  ⟨(c7_echo_handler (mkReq Method.Get ("/echo/abc".data)) (Or.inr (by decide))).1 rfl,
   (c7_echo_handler { mkReq Method.Post ("/echo".data) with body := "abc".data }
      (Or.inl rfl)).2.1 rfl rfl,
   (c7_echo_handler (mkReq Method.Post ("/echo/abc".data)) (Or.inr (by decide))).2.2.1 rfl
      (by decide),
   (c7_echo_handler (mkReq Method.Put ("/echo".data)) (Or.inl rfl)).2.2.2.1 (Or.inl rfl)⟩

/-- Claim C5: a request parses successfully only when splitting its trimmed
request line on single-space boundaries yields exactly three tokens — the
method literal, the path and the version; with fewer or more tokens the parse
fails; and every parse failure is mapped by the connection handler to a bare
400 response. -/
theorem c5_request_line_tokens (fs : Fs) (st : State) (w : Wire) :
    (∀ req, parse_to_request w = Except.ok req →
      splitAll ' ' (trimEnd (w.lines.getD 0 [])) =
        [req.method.as_str, req.path, req.version]) ∧
    ((splitAll ' ' (trimEnd (w.lines.getD 0 []))).length ≠ 3 →
      ∃ e, parse_to_request w = Except.error e) ∧
    (∀ e, parse_to_request w = Except.error e →
      handle_connection fs st w = (some (Response.new Status.Http400), [])) := by
  have main : ∀ req, parse_to_request w = Except.ok req →
      splitAll ' ' (trimEnd (w.lines.getD 0 [])) =
        [req.method.as_str, req.path, req.version] := by
    intro req hok
    obtain ⟨hsp, hver⟩ := parse_ok_request_line hok
    obtain ⟨r, h1, h2⟩ := splitn3_inv hsp
    rw [breakChar_some_splitAll h1, breakChar_some_splitAll h2]
    have hnone : breakChar ' ' req.version = none := by
      rw [hver]
      rfl
    rw [breakChar_none_splitAll hnone]
  refine ⟨main, ?_, ?_⟩
  · intro hlen
    cases hp : parse_to_request w with
    | ok req =>
      refine absurd ?_ hlen
      rw [main req hp]
      rfl
    | error e => exact ⟨e, rfl⟩
  · intro e he
    simp only [handle_connection, he]

/-- Witness for C5 at a concrete well-formed and a concrete malformed
request line. -/
theorem c5_request_line_tokens_witness :
    splitAll ' ' (trimEnd (("GET / HTTP/1.1".data : Str))) =
      [Method.Get.as_str, "/".data, "HTTP/1.1".data] ∧
    handle_connection fsAllOk stBase (Wire.mk ["GET /".data] []) =
      (some (Response.new Status.Http400), []) :=
  ⟨(c5_request_line_tokens fsAllOk stBase (Wire.mk ["GET / HTTP/1.1".data] [])).1
      { method := Method.Get, path := "/".data, version := "HTTP/1.1".data,
        headers := [], body := [] } rfl,
   (c5_request_line_tokens fsAllOk stBase (Wire.mk ["GET /".data] [])).2.2
      ("invalid request".data) rfl⟩

/-- Claim C8: the declared body length is the `Content-Length` header value
parsed as a usize, defaulting to 0 when the header is absent or does not
parse; a declared length above 1024 fails the parse; a declared length of 0
yields an empty body and reads no body bytes (the parse does not depend on the
bytes available); a positive in-cap declared length takes
`min(bytes read, declared)` bytes. -/
theorem c8_body_length (lines : List Str) (hs : Headers) (m : Method) (p0 p1 : Str)
    (hline : splitn3 ' ' (trimEnd (lines.getD 0 [])) = [p0, p1, "HTTP/1.1".data])
    (hm : methodOfStr p0 = some m)
    (hh : parseHeaders (lines.drop 1) [] = Except.ok hs) :
    (hmGet hs CONTENT_LENGTH = none → declaredLength hs = 0) ∧
    (∀ v, hmGet hs CONTENT_LENGTH = some v → parseUsize v = none → declaredLength hs = 0) ∧
    (1024 < declaredLength hs → ∀ b,
      parse_to_request (Wire.mk lines b) = Except.error ("content too long".data)) ∧
    (declaredLength hs = 0 → ∀ b,
      parse_to_request (Wire.mk lines b) =
        Except.ok
          { method := m, path := p1, version := "HTTP/1.1".data, headers := hs, body := [] }) ∧
    (0 < declaredLength hs → declaredLength hs ≤ 1024 → ∀ b,
      parse_to_request (Wire.mk lines b) =
        Except.ok
          { method := m, path := p1, version := "HTTP/1.1".data, headers := hs,
            body := b.take (min (min b.length 1024) (declaredLength hs)) }) := by
  refine ⟨?_, ?_, ?_, ?_, ?_⟩
  · intro h
    simp [declaredLength, h]
  · intro v hv hn
    simp [declaredLength, hv, hn]
  · intro hlen b
    rw [parse_to_request_eq (Wire.mk lines b) hline hm hh, if_pos hlen]
  · intro h0 b
    rw [parse_to_request_eq (Wire.mk lines b) hline hm hh, h0]
    simp
  · intro hpos hle b
    rw [parse_to_request_eq (Wire.mk lines b) hline hm hh,
      if_neg (by omega), if_pos hpos]

/-- Witness for C8 at a concrete `POST /echo` with `Content-Length: 3` and
six available body bytes. -/
theorem c8_body_length_witness :
    parse_to_request
        (Wire.mk ["POST /echo HTTP/1.1".data, "Content-Length: 3".data, []] ("abcdef".data)) =
      Except.ok
        { method := Method.Post, path := "/echo".data, version := "HTTP/1.1".data,
          headers := [("Content-Length".data, "3".data)], body := "abc".data } :=
  (c8_body_length ["POST /echo HTTP/1.1".data, "Content-Length: 3".data, []]
      [("Content-Length".data, "3".data)] Method.Post ("POST".data) ("/echo".data)
      rfl rfl rfl).2.2.2.2 (by decide) (by decide) ("abcdef".data)

/-- Claim C10: the parser strips all trailing whitespace — spaces and tabs
included, not only CR and LF — from the request line and from every header
line before interpreting them: appending trailing whitespace changes neither
the request-line parse nor the header parse, and no parsed header value ends
in a whitespace character. -/
theorem c10_trailing_whitespace :
    (∀ (l : Str) (rest : List Str) (b ws : Str), (∀ c ∈ ws, isRustWhitespace c = true) →
      parse_to_request (Wire.mk ((l ++ ws) :: rest) b) =
        parse_to_request (Wire.mk (l :: rest) b)) ∧
    (∀ (l : Str) (rest : List Str) (hs : Headers) (ws : Str),
      (∀ c ∈ ws, isRustWhitespace c = true) →
      parseHeaders ((l ++ ws) :: rest) hs = parseHeaders (l :: rest) hs) ∧
    (∀ (lines : List Str) (hs : Headers) (k v : Str), parseHeaders lines [] = Except.ok hs →
      hmGet hs k = some v → endsInWs v = false) := by
  refine ⟨?_, ?_, ?_⟩
  · intro l rest b ws hws
    simp only [parse_to_request, List.getD_cons_zero, List.drop_succ_cons, List.drop_zero,
      trimEnd_append_ws hws]
  · intro l rest hs ws hws
    simp only [parseHeaders, trimEnd_append_ws hws]
  · intro lines hs k v hok hget
    exact valuesTrimmed_hmGet (parseHeaders_valuesTrimmed lines [] hs valuesTrimmed_nil hok) hget

/-- Witness for C10 at concrete lines with trailing spaces and tabs. -/
theorem c10_trailing_whitespace_witness :
    parse_to_request (Wire.mk [("GET / HTTP/1.1".data ++ " \t".data)] []) =
      parse_to_request (Wire.mk ["GET / HTTP/1.1".data] []) ∧
    parseHeaders [("User-Agent: curl".data ++ " ".data)] [] =
      parseHeaders [("User-Agent: curl".data)] [] ∧
    endsInWs ("curl".data) = false :=
  ⟨c10_trailing_whitespace.1 ("GET / HTTP/1.1".data) [] [] (" \t".data) (by decide),
   c10_trailing_whitespace.2.1 ("User-Agent: curl".data) [] [] (" ".data) (by decide),
   c10_trailing_whitespace.2.2 [("User-Agent: curl".data)]
      [("User-Agent".data, "curl".data)] ("User-Agent".data) ("curl".data) rfl rfl⟩

end Claims

end HttpSrv
